import Mathlib

/-!
Verification of the AI commit-message generator's core components against a
shallow embedding of its Go source.

The embedding covers:
* `internal/git` state detection (`DetectGitState`, `filterCommentLines`),
* the go-git based staged-diff synthesizer (`GetStagedDiff` blocks and the
  10,000-character truncation rule),
* the Ollama API client (`GenerateCommitMessage` retry loop and
  `buildPrompt`).

Filesystem reads and HTTP exchanges are modelled as explicit inputs (records
of file existence/contents, and a sequence of HTTP results indexed by attempt
number).  Go's string primitives (`strings.TrimSpace`, `strings.Split`,
`strings.Join`, `strings.HasPrefix`, byte slicing) are modelled by structurally
recursive functions over the character list of a `String`, so that every
definition evaluates inside the kernel.
-/

namespace AICommit

/-! ## Go string primitives -/

/-- Whitespace as trimmed by `strings.TrimSpace` (ASCII fragment: space, tab,
newline, carriage return, vertical tab, form feed). -/
def isSpaceChar (c : Char) : Bool :=
  c == ' ' || c == '\t' || c == '\n' || c == '\r' || c == '\x0b' || c == '\x0c'

/-- Drop leading characters satisfying `p`. -/
def dropWhileChar (p : Char → Bool) : List Char → List Char
  | [] => []
  | c :: cs => if p c then dropWhileChar p cs else c :: cs

/-- Model of Go `strings.TrimSpace`: remove leading and trailing whitespace. -/
def goTrimSpace (s : String) : String :=
  String.mk (dropWhileChar isSpaceChar
    ((dropWhileChar isSpaceChar s.data.reverse).reverse))

/-- Split a character list at newline characters (every separator splits;
an empty input yields one empty field, like Go `strings.Split(s, "\n")`). -/
def splitNLAux : List Char → List Char → List (List Char)
  | [], acc => [acc.reverse]
  | c :: cs, acc =>
    if c == '\n' then acc.reverse :: splitNLAux cs []
    else splitNLAux cs (c :: acc)

/-- Model of Go `strings.Split(s, "\n")`. -/
def goSplitNL (s : String) : List String :=
  (splitNLAux s.data []).map String.mk

/-- Model of Go `strings.Join(xs, "\n")`. -/
def goJoinNL : List String → String
  | [] => ""
  | [x] => x
  | x :: xs => x ++ "\n" ++ goJoinNL xs

/-- Model of Go `strings.HasPrefix`. -/
def goHasPrefix (s pre : String) : Bool :=
  pre.data.isPrefixOf s.data

/-! ## Git state model (internal/git/state.go) -/

/-- `GitStateType` from the Go source: the four repository operation states. -/
inductive GitStateType where
  | normal
  | merge
  | rebase
  | cherryPick
deriving DecidableEq

/-- `GitState`: the Go struct with fields `Type`, `OriginalMessage`,
`ConflictMode` (`Type` is renamed `type` since `Type` is reserved in Lean). -/
structure GitState where
  type : GitStateType
  OriginalMessage : String
  ConflictMode : Bool
deriving DecidableEq

/-- `filterCommentLines` from the Go source: split on newlines, keep the
original text of each line whose whitespace-trimmed form is nonempty and does
not start with `#`, join the kept lines with newlines. -/
def filterCommentLines (message : String) : String :=
  let lines := goSplitNL message
  let filtered := lines.filter (fun line =>
    let trimmed := goTrimSpace line
    !(goHasPrefix trimmed "#") && !(trimmed == ""))
  goJoinNL filtered

/-- The filesystem facts `DetectGitState` inspects under `<repoRoot>/.git`:
which control files exist (`os.Stat` succeeding, and for the rebase paths
also being a directory), and the contents `os.ReadFile` would return
(`none` models a read failure or an absent file). -/
structure RepoFS where
  gitDirExists : Bool
  mergeHeadExists : Bool
  cherryPickHeadExists : Bool
  rebaseMergeIsDir : Bool
  rebaseApplyIsDir : Bool
  mergeMsg : Option String
  commitEditMsg : Option String
  rebaseMergeHeadName : Option String
  rebaseApplyHeadName : Option String

/-- `DetectGitState` from the Go source, over the `RepoFS` filesystem model.
The Go code initialises the state to Normal with `ConflictMode = false` and
only sets `OriginalMessage` when the corresponding read succeeds (its zero
value `""` remains otherwise). -/
def DetectGitState (repoRoot : String) (fs : RepoFS) : Except String GitState :=
  if !fs.gitDirExists then
    .error ("not a git repository: " ++ repoRoot)
  else if fs.mergeHeadExists then
    .ok ⟨.merge,
         (match fs.mergeMsg with
          | some content => filterCommentLines (goTrimSpace content)
          | none => ""),
         true⟩
  else if fs.cherryPickHeadExists then
    .ok ⟨.cherryPick,
         (match fs.commitEditMsg with
          | some content => filterCommentLines (goTrimSpace content)
          | none => ""),
         true⟩
  else if fs.rebaseMergeIsDir then
    .ok ⟨.rebase,
         (match fs.rebaseMergeHeadName with
          | some content => "Rebase branch: " ++ goTrimSpace content
          | none => ""),
         true⟩
  else if fs.rebaseApplyIsDir then
    .ok ⟨.rebase,
         (match fs.rebaseApplyHeadName with
          | some content => "Rebase branch: " ++ goTrimSpace content
          | none => ""),
         true⟩
  else
    .ok ⟨.normal, "", false⟩

/-! ## Staged-diff synthesizer model (go-git client, `GetStagedDiff`) -/

/-- go-git staging codes distinguished by `GetStagedDiff`'s switch. -/
inductive StagingCode where
  | unmodified
  | untracked
  | added
  | deleted
  | modified
  | renamed
  | copied
deriving DecidableEq

/-- One entry of the worktree status map: the map key (`filePath`), the
staging code, and the `Extra` field used for index/rename labels. -/
structure FileStatus where
  path : String
  staging : StagingCode
  extra : String
deriving DecidableEq

/-- The repository facts `GetStagedDiff` consumes: the status entries in the
iteration order of the status map, the working-directory file contents
(`os.ReadFile`; `none` models a read error), and the content of a path's blob
in the HEAD commit tree (`none` models: no HEAD/tree, entry not found, or a
blob read failure). -/
structure RepoModel where
  statusList : List FileStatus
  workFile : String → Option String
  headBlob : String → Option String

/-- The diff block `GetStagedDiff` emits for one staged file, as the list of
lines written to the string builder (each Go `WriteString` ends in `\n`).
Mirrors the Go `switch fileStatus.Staging` including its omissions: a missing
working-tree file for an Added entry and a missing HEAD blob for a Deleted
entry contribute no body lines, while for a Modified entry missing content is
replaced by the empty string (whose split still yields one line). A staging
code with no case (e.g. Copied) emits nothing. -/
def fileBlockLines (m : RepoModel) (fs : FileStatus) : List String :=
  match fs.staging with
  | .added =>
    ["diff --git a/" ++ fs.path ++ " b/" ++ fs.path,
     "new file mode 100644",
     "index 0000000.." ++ fs.extra,
     "--- /dev/null",
     "+++ b/" ++ fs.path] ++
      (match m.workFile fs.path with
       | some content => (goSplitNL content).map (fun line => "+" ++ line)
       | none => [])
  | .deleted =>
    ["diff --git a/" ++ fs.path ++ " b/" ++ fs.path,
     "deleted file mode 100644",
     "index " ++ fs.extra ++ "..0000000",
     "--- a/" ++ fs.path,
     "+++ /dev/null"] ++
      (match m.headBlob fs.path with
       | some content => (goSplitNL content).map (fun line => "-" ++ line)
       | none => [])
  | .modified =>
    ["diff --git a/" ++ fs.path ++ " b/" ++ fs.path,
     "index " ++ fs.extra ++ ".." ++ fs.extra ++ " 100644",
     "--- a/" ++ fs.path,
     "+++ b/" ++ fs.path] ++
      (goSplitNL (match m.headBlob fs.path with
                  | some content => content
                  | none => "")).map (fun line => "-" ++ line) ++
      (goSplitNL (match m.workFile fs.path with
                  | some content => content
                  | none => "")).map (fun line => "+" ++ line)
  | .renamed =>
    ["diff --git a/" ++ fs.extra ++ " b/" ++ fs.path,
     "rename from " ++ fs.extra,
     "rename to " ++ fs.path]
  | _ => []

/-- The text a block contributes to the builder: its lines, each with the
trailing newline the Go format strings carry. -/
def fileBlock (m : RepoModel) (fs : FileStatus) : String :=
  String.join ((fileBlockLines m fs).map (fun line => line ++ "\n"))

/-- The loop's `continue` guard: process only staged entries. -/
def isStagedChange (fs : FileStatus) : Bool :=
  !(fs.staging == .unmodified) && !(fs.staging == .untracked)

/-- `diffBuilder.String()`: concatenation of all staged files' blocks in
status order, before truncation. -/
def rawStagedDiff (m : RepoModel) : String :=
  String.join ((m.statusList.filter isStagedChange).map (fileBlock m))

/-- Model of the Go slice `diff[:n]` (character granularity). -/
def goTake (s : String) (n : Nat) : String :=
  String.mk (s.data.take n)

/-- The final truncation step of `GetStagedDiff`: texts longer than 10,000
characters are cut to their first 10,000 characters plus the literal
truncation marker. -/
def truncateDiff (diff : String) : String :=
  if diff.length > 10000 then goTake diff 10000 ++ "\n...[TRUNCATED]"
  else diff

/-- `GetStagedDiff` over the repository model: synthesize all blocks, then
apply the truncation rule. -/
def GetStagedDiff (m : RepoModel) : String :=
  truncateDiff (rawStagedDiff m)

/-! ## Ollama API client model (internal/ai, `GenerateCommitMessage`) -/

/-- `ollamaResponse`: the decoded JSON success payload. -/
structure OllamaResponse where
  response : String
  done : Bool
deriving DecidableEq

/-- What one HTTP attempt observes: either a transport failure from
`client.Do`, or a response with its numeric status code, its status text
(Go `resp.Status`), its raw body, and the result of JSON-decoding the body
into `ollamaResponse` (`none` models a decode error). -/
inductive HttpResult where
  | failure (msg : String)
  | response (statusCode : Nat) (status : String) (body : String)
      (decoded : Option OllamaResponse)
deriving DecidableEq

/-- The error taxonomy of `GenerateCommitMessage`, with the payloads the Go
error strings interpolate. -/
inductive GenError where
  | transport (msg : String)
  | rateLimitExceeded (retries : Nat) (lastBody : String)
  | remoteError (status : String) (body : String)
  | decodeError
  | emptyResponse
  | unreachable
deriving DecidableEq

/-- Observable outcome of one `GenerateCommitMessage` call: the sleeps
performed (in order, in time units), the number of HTTP requests issued, and
the returned value or error. -/
structure GenTrace where
  sleeps : List Nat
  calls : Nat
  result : Except GenError String

/-- The retry loop `for attempt := 0; attempt <= maxRetries; attempt++`.
`fuel` is the number of loop iterations still permitted
(`maxRetries + 1 - attempt` at every call site); when it reaches zero the
loop has exited and the Go function returns its trailing `unreachable`
error. Before every attempt after the first, the backoff sleep of
`baseDelay * 2^(attempt-1)` = 2, 4, 8 time units is recorded. -/
def attemptLoop (resps : Nat → HttpResult) (maxRetries : Nat) :
    Nat → Nat → GenTrace
  | 0, _ => ⟨[], 0, .error .unreachable⟩
  | fuel + 1, attempt =>
    let pre : List Nat := if attempt > 0 then [2 * 2 ^ (attempt - 1)] else []
    match resps attempt with
    | .failure msg => ⟨pre, 1, .error (.transport msg)⟩
    | .response statusCode status body decoded =>
      if statusCode == 429 then
        if attempt == maxRetries then
          ⟨pre, 1, .error (.rateLimitExceeded maxRetries body)⟩
        else
          let rest := attemptLoop resps maxRetries fuel (attempt + 1)
          ⟨pre ++ rest.sleeps, 1 + rest.calls, rest.result⟩
      else if !(statusCode == 200) then
        ⟨pre, 1, .error (.remoteError status body)⟩
      else
        match decoded with
        | none => ⟨pre, 1, .error .decodeError⟩
        | some o =>
          if o.response == "" then ⟨pre, 1, .error .emptyResponse⟩
          else ⟨pre, 1, .ok (goTrimSpace o.response)⟩

/-- `GenerateCommitMessage`'s network loop with the Go constants
`maxRetries = 3` (4 attempts) and full fuel, over the sequence of HTTP
results indexed by attempt number. -/
def GenerateCommitMessage (resps : Nat → HttpResult) : GenTrace :=
  attemptLoop resps 3 4 0

/-- Whether an attempt's outcome is an HTTP 429 response. -/
def is429 : HttpResult → Bool
  | .response code _ _ _ => code == 429
  | .failure _ => false

/-- The raw body of an attempt's outcome (empty for a transport failure). -/
def bodyOf : HttpResult → String
  | .response _ _ body _ => body
  | .failure _ => ""

/-! ## Prompt builder (internal/ai, `buildPrompt`)

`buildPrompt` is a pure sequence of `strings.Builder` writes; each named
constant below is the text of consecutive `WriteString` calls, concatenated
in source order. -/

/-- The fixed role preamble. -/
def promptPreamble : String :=
  "You are an expert DevOps engineer specialized in writing git commit messages.\n\n"

/-- The merge-case instruction block (`case git.StateMerge`). -/
def mergeContext (st : GitState) : String :=
  "CONTEXT: You are completing a MERGE CONFLICT resolution.\n" ++
  (if !(st.OriginalMessage == "") then
    "Original merge intent: \"" ++ st.OriginalMessage ++ "\"\n"
   else "") ++
  "\nIMPORTANT INSTRUCTIONS:\n" ++
  "1. You MUST use the following EXACT format for the first line:\n" ++
  "   <type>(merge): Merged <Source_Branch> into <Target_Branch>\n" ++
  "2. Analyze the diff and choose the appropriate <type> based on the changes:\n" ++
  "   - feat: if adding new features or capabilities\n" ++
  "   - fix: if fixing bugs or issues\n" ++
  "   - refactor: if restructuring code without changing functionality\n" ++
  "   - chore: if updating dependencies, configs, or maintenance tasks\n" ++
  "   - docs: if primarily documentation changes\n" ++
  "3. Extract <Source_Branch> from the Original merge intent (e.g. 'Merge branch feature-x' -> feature-x).\n" ++
  "4. If <Target_Branch> is unknown, use 'main' or infer from the diff/context.\n" ++
  "5. After the first line, leave a blank line and then provide a detailed description of what code changes were merged.\n" ++
  "6. Explain HOW conflicts were resolved if applicable.\n" ++
  "7. Example First Line: feat(merge): Merged feature-auth into main\n\n"

/-- The rebase-case instruction block (`case git.StateRebase`). -/
def rebaseContext (st : GitState) : String :=
  "CONTEXT: You are completing a REBASE conflict resolution.\n" ++
  (if !(st.OriginalMessage == "") then
    "Rebase context: " ++ st.OriginalMessage ++ "\n"
   else "") ++
  "\nIMPORTANT INSTRUCTIONS:\n" ++
  "1. You MUST use the following EXACT format for the first line:\n" ++
  "   <type>(rebase): Rebased <Branch_Name> onto <Target_Branch>\n" ++
  "2. Analyze the diff and choose the appropriate <type> based on the changes:\n" ++
  "   - feat: if adding new features or capabilities\n" ++
  "   - fix: if fixing bugs or issues\n" ++
  "   - refactor: if restructuring code without changing functionality\n" ++
  "   - chore: if updating dependencies, configs, or maintenance tasks\n" ++
  "   - docs: if primarily documentation changes\n" ++
  "3. Extract <Branch_Name> from the Rebase context if available, otherwise infer from diff.\n" ++
  "4. If <Target_Branch> is unknown, use 'main' or infer from context.\n" ++
  "5. After the first line, leave a blank line and then provide a detailed description of what code changes were rebased.\n" ++
  "6. Explain HOW conflicts were resolved if applicable.\n" ++
  "7. Example First Line: feat(rebase): Rebased feature-auth onto main\n\n"

/-- The cherry-pick-case instruction block (`case git.StateCherryPick`). -/
def cherryPickContext (st : GitState) : String :=
  "CONTEXT: You are completing a CHERRY-PICK operation.\n" ++
  (if !(st.OriginalMessage == "") then
    "Original commit: \"" ++ st.OriginalMessage ++ "\"\n"
   else "") ++
  "\nIMPORTANT INSTRUCTIONS:\n" ++
  "1. You MUST use the following EXACT format for the first line:\n" ++
  "   <type>(cherry-pick): Cherry-picked <Commit_Description> into <Target_Branch>\n" ++
  "   ⚠️  CRITICAL: The scope MUST be 'cherry-pick', NOT the original scope from the commit!\n" ++
  "2. Analyze the diff and choose the appropriate <type> based on the changes:\n" ++
  "   - feat: if adding new features or capabilities\n" ++
  "   - fix: if fixing bugs or issues\n" ++
  "   - refactor: if restructuring code without changing functionality\n" ++
  "   - chore: if updating dependencies, configs, or maintenance tasks\n" ++
  "   - docs: if primarily documentation changes\n" ++
  "3. Extract <Commit_Description> from the Original commit message if available.\n" ++
  "4. If <Target_Branch> is unknown, use 'main' or infer from context.\n" ++
  "5. After the first line, leave a blank line and then provide a detailed description of what was cherry-picked.\n" ++
  "6. Explain HOW conflicts were resolved and what adaptations were made if applicable.\n" ++
  "7. CORRECT Example: docs(cherry-pick): Cherry-picked feature entries update into main\n" ++
  "8. WRONG Example: docs(file): updated feature entries (missing cherry-pick scope!)\n\n"

/-- The `switch gitState.Type` inside the non-Normal guard; a Normal value
cannot reach the switch, and a Go switch with no matching case writes
nothing. -/
def stateContext (st : GitState) : String :=
  match st.type with
  | .merge => mergeContext st
  | .rebase => rebaseContext st
  | .cherryPick => cherryPickContext st
  | .normal => ""

/-- The fixed general instructions written after the optional state block. -/
def generalInstructions : String :=
  "Analyze the following code diff.\n\n" ++
  "First, determine whether the diff represents a single logical change or multiple independent changes that should be split into smaller commits to follow clean code and best practices.\n\n" ++
  "If the diff should be split, briefly state that it can be broken down and list the suggested commit scopes or purposes (do not generate the commits yet).\n\n" ++
  "If the diff represents a single logical change, generate a single-line git commit message following the Conventional Commits specification.\n\n" ++
  "Format for commit message:\n<type>(<scope>): <description>\n\n" ++
  "Allowed types: feat, fix, docs, style, refactor, test, chore.\n\n" ++
  "IMPORTANT: Use past tense for the description (e.g., 'added feature' not 'add feature', 'fixed bug' not 'fix bug').\n\n" ++
  "Do not output anything other than the message or the split suggestion.\n\n"

/-- `buildPrompt` from the Go source: the Go `gitState` pointer is an
`Option GitState` (`none` = nil); the state block is written only under the
guard `gitState != nil && gitState.Type != git.StateNormal`, and the Team
Rules block only when `rules != ""`. -/
def buildPrompt (diff rules : String) (gitState : Option GitState) : String :=
  promptPreamble ++
  (match gitState with
   | some st =>
     if !(st.type == .normal) then
       "=== SPECIAL GIT STATE CONTEXT ===\n\n" ++ stateContext st ++
       "=================================\n\n"
     else ""
   | none => "") ++
  generalInstructions ++
  (if !(rules == "") then "Team Rules:\n" ++ rules ++ "\n\n" else "") ++
  ("Diff:\n" ++ diff)

/-- The state-specific segment of the prompt, named for the structure
theorem: empty for nil and Normal states, the delimited context block
otherwise. -/
def statePromptBlock : Option GitState → String
  | none => ""
  | some st =>
    if st.type = .normal then ""
    else
      "=== SPECIAL GIT STATE CONTEXT ===\n\n" ++ stateContext st ++
      "=================================\n\n"

/-- The Team Rules segment of the prompt, named for the structure theorem. -/
def rulesPromptBlock (rules : String) : String :=
  if rules = "" then "" else "Team Rules:\n" ++ rules ++ "\n\n"

/-- The filtering described by the claim's words, for comparison with the
code: drop exactly the lines that are literally empty or literally start
with `#` (no whitespace trimming before the test). -/
def filterCommentLinesLiteral (message : String) : String :=
  goJoinNL ((goSplitNL message).filter (fun line =>
    !(goHasPrefix line "#") && !(line == "")))

/-! ## Helper lemmas -/

/-- `dropWhileChar` only removes a prefix: its result is obtained by
dropping some number of leading characters. -/
theorem dropWhileChar_eq_drop (p : Char → Bool) :
    ∀ l : List Char, ∃ n, dropWhileChar p l = l.drop n := by
  intro l
  induction l with
  | nil => exact ⟨0, rfl⟩
  | cons c cs ih =>
    by_cases h : p c = true
    · obtain ⟨n, hn⟩ := ih
      exact ⟨n + 1, by simp [dropWhileChar, h, hn]⟩
    · exact ⟨0, by simp [dropWhileChar, h]⟩

/-- A whitespace-trimmed string is either empty or keeps the `#` the
original started with. -/
theorem goTrimSpace_hash (line : String) (h : goHasPrefix line "#" = true) :
    goTrimSpace line = "" ∨ goHasPrefix (goTrimSpace line) "#" = true := by
  obtain ⟨data⟩ := line
  simp only [goHasPrefix] at h
  cases data with
  | nil => simp [List.isPrefixOf] at h
  | cons c rest =>
    have hc : c = '#' := by
      simp [List.isPrefixOf] at h
      exact h.symm
    subst hc
    simp only [goTrimSpace]
    obtain ⟨n, hn⟩ := dropWhileChar_eq_drop isSpaceChar (('#' :: rest).reverse)
    rw [hn]
    rcases Nat.lt_or_ge n (('#' :: rest).reverse).length with hlt | hge
    · right
      have hrev : ((('#' :: rest).reverse).drop n).reverse =
          ('#' :: rest).take (('#' :: rest).length - n) := by
        rw [List.drop_reverse, List.reverse_reverse]
      rw [hrev]
      have hpos : 0 < ('#' :: rest).length - n := by
        simp only [List.length_reverse] at hlt
        omega
      obtain ⟨k, hk⟩ : ∃ k, ('#' :: rest).length - n = k + 1 :=
        ⟨('#' :: rest).length - n - 1, by omega⟩
      rw [hk]
      simp only [List.take_succ_cons]
      have hsp : isSpaceChar '#' = false := rfl
      simp [dropWhileChar, hsp, goHasPrefix, List.isPrefixOf]
    · left
      rw [List.drop_eq_nil_of_le hge]
      rfl

/-! ## Claim theorems: state detection -/

/-- C5: `DetectGitState` checks the control files in the strict order
MERGE_HEAD, CHERRY_PICK_HEAD, rebase-merge directory, rebase-apply
directory, returning at the first match; in particular when both MERGE_HEAD
and a rebase-merge directory exist, the result is the Merge state and never
Rebase. -/
theorem detectGitState_strict_order (repoRoot : String) (fs : RepoFS)
    (hgit : fs.gitDirExists = true) :
    (fs.mergeHeadExists = true →
      ∃ st, DetectGitState repoRoot fs = .ok st ∧ st.type = .merge) ∧
    (fs.mergeHeadExists = false → fs.cherryPickHeadExists = true →
      ∃ st, DetectGitState repoRoot fs = .ok st ∧ st.type = .cherryPick) ∧
    (fs.mergeHeadExists = false → fs.cherryPickHeadExists = false →
      fs.rebaseMergeIsDir = true →
      ∃ st, DetectGitState repoRoot fs = .ok st ∧ st.type = .rebase) ∧
    (fs.mergeHeadExists = false → fs.cherryPickHeadExists = false →
      fs.rebaseMergeIsDir = false → fs.rebaseApplyIsDir = true →
      ∃ st, DetectGitState repoRoot fs = .ok st ∧ st.type = .rebase) ∧
    (fs.mergeHeadExists = false → fs.cherryPickHeadExists = false →
      fs.rebaseMergeIsDir = false → fs.rebaseApplyIsDir = false →
      DetectGitState repoRoot fs = .ok ⟨.normal, "", false⟩) ∧
    (fs.mergeHeadExists = true → fs.rebaseMergeIsDir = true →
      ∀ st, DetectGitState repoRoot fs = .ok st →
        st.type = .merge ∧ ¬ st.type = .rebase) := by
  refine ⟨fun h1 => ?_, fun h1 h2 => ?_, fun h1 h2 h3 => ?_,
    fun h1 h2 h3 h4 => ?_, fun h1 h2 h3 h4 => ?_, fun h1 h3 => ?_⟩ <;>
    simp [DetectGitState, hgit, h1, *]

/-- Witness for C5 at a concrete filesystem where both MERGE_HEAD and a
rebase-merge directory are present. -/
theorem detectGitState_strict_order_witness :
    (RepoFS.mk true true false true false (some "Merge branch x") none
        (some "refs/heads/b") none).gitDirExists = true ∧
    (∀ st, DetectGitState "/repo"
        (RepoFS.mk true true false true false (some "Merge branch x") none
          (some "refs/heads/b") none) = .ok st →
      st.type = .merge ∧ ¬ st.type = .rebase) :=
  ⟨rfl, (detectGitState_strict_order "/repo"
      (RepoFS.mk true true false true false (some "Merge branch x") none
        (some "refs/heads/b") none) rfl).2.2.2.2.2 rfl rfl⟩

/-- C7: every state `DetectGitState` successfully returns satisfies the
invariant: `ConflictMode` is true exactly when the state's type is not
Normal. -/
theorem detectGitState_conflictMode_iff (repoRoot : String) (fs : RepoFS)
    (st : GitState) (h : DetectGitState repoRoot fs = .ok st) :
    st.ConflictMode = true ↔ ¬ st.type = GitStateType.normal := by
  unfold DetectGitState at h
  split_ifs at h <;>
    simp only [Except.ok.injEq, reduceCtorEq] at h <;>
    subst h <;> simp

/-- Witness for C7 at a concrete filesystem in the Normal state. -/
theorem detectGitState_conflictMode_iff_witness :
    DetectGitState "/repo"
        (RepoFS.mk true false false false false none none none none) =
      .ok ⟨.normal, "", false⟩ ∧
    ((GitState.mk .normal "" false).ConflictMode = true ↔
      ¬ (GitState.mk .normal "" false).type = GitStateType.normal) :=
  ⟨rfl, detectGitState_conflictMode_iff "/repo"
    (RepoFS.mk true false false false false none none none none)
    (GitState.mk .normal "" false) rfl⟩

/-- C8: when the `.git` metadata directory is absent, `DetectGitState`
returns the not-a-repository error naming the root, and never returns any
state (in particular not Normal). -/
theorem detectGitState_no_git_dir (repoRoot : String) (fs : RepoFS)
    (h : fs.gitDirExists = false) :
    DetectGitState repoRoot fs =
      .error ("not a git repository: " ++ repoRoot) ∧
    ∀ st, ¬ DetectGitState repoRoot fs = .ok st := by
  constructor
  · simp [DetectGitState, h]
  · intro st
    simp [DetectGitState, h]

/-- Witness for C8 at a concrete filesystem lacking `.git`. -/
theorem detectGitState_no_git_dir_witness :
    (RepoFS.mk false false false false false none none none none).gitDirExists
        = false ∧
    DetectGitState "/tmp/x"
        (RepoFS.mk false false false false false none none none none) =
      .error ("not a git repository: " ++ "/tmp/x") :=
  ⟨rfl, (detectGitState_no_git_dir "/tmp/x"
    (RepoFS.mk false false false false false none none none none) rfl).1⟩

/-! ## Claim theorems: comment-line filtering -/

/-- C6 counterexample: the claim's literal filtering predicate (drop lines
that are empty or start with `#`) disagrees with the code on the input
`"a\n #c"`: the code also drops the line `" #c"` whose `#` follows a space,
so the two results differ. -/
theorem filterCommentLines_literal_cex :
    filterCommentLines "a\n #c" = "a" ∧
    filterCommentLinesLiteral "a\n #c" = "a\n #c" ∧
    ¬ ("a" : String) = "a\n #c" :=
  ⟨rfl, rfl, by decide⟩

/-- C6 (amended): the comment-stripping removes every line that is blank or
whose whitespace-trimmed form starts with `#` — keeping the original text of
the other lines, joined with newlines; every literally empty or literally
`#`-prefixed line is in particular removed, and the claim's example
`"feat: x\n# comment\n\nbody"` yields `"feat: x\nbody"`. -/
theorem filterCommentLines_amended (message : String) :
    filterCommentLines message =
      goJoinNL ((goSplitNL message).filter (fun line =>
        !(goHasPrefix (goTrimSpace line) "#") && !(goTrimSpace line == ""))) ∧
    (∀ line : String, line = "" ∨ goHasPrefix line "#" = true →
      (!(goHasPrefix (goTrimSpace line) "#") && !(goTrimSpace line == ""))
        = false) ∧
    filterCommentLines "feat: x\n# comment\n\nbody" = "feat: x\nbody" := by
  refine ⟨rfl, ?_, rfl⟩
  intro line h
  rcases h with h | h
  · subst h
    rfl
  · rcases goTrimSpace_hash line h with htrim | htrim
    · rw [htrim]
      rfl
    · rw [htrim]
      rfl

/-- Witness for C6 (amended) at the claim's concrete message and the
concrete comment line `"# comment"`. -/
theorem filterCommentLines_amended_witness :
    (("# comment" : String) = "" ∨ goHasPrefix "# comment" "#" = true) ∧
    (!(goHasPrefix (goTrimSpace "# comment") "#") &&
        !(goTrimSpace "# comment" == "")) = false ∧
    filterCommentLines "feat: x\n# comment\n\nbody" = "feat: x\nbody" :=
  ⟨Or.inr rfl,
   (filterCommentLines_amended "feat: x\n# comment\n\nbody").2.1
     "# comment" (Or.inr rfl),
   (filterCommentLines_amended "feat: x\n# comment\n\nbody").2.2⟩

/-! ## Claim theorems: diff synthesis -/

/-- A string built by prepending a marker character keeps it as prefix. -/
theorem goHasPrefix_cons (c : String) (x : String) (hc : c.data.length = 1) :
    goHasPrefix (c ++ x) c = true := by
  obtain ⟨cd⟩ := c
  obtain ⟨xd⟩ := x
  simp only [goHasPrefix, String.data_append]
  cases cd with
  | nil => simp at hc
  | cons a as =>
    cases as with
    | nil => simp [List.isPrefixOf]
    | cons b bs => simp at hc

/-- C4: `GetStagedDiff` applies the truncation rule to the synthesized text:
any diff text longer than 10,000 characters is returned as exactly its first
10,000 characters followed by the literal suffix `"\n...[TRUNCATED]"` (total
length 10,000 + 15), and any text of at most 10,000 characters is returned
unchanged. -/
theorem getStagedDiff_truncation (m : RepoModel) (d : String) :
    GetStagedDiff m = truncateDiff (rawStagedDiff m) ∧
    (d.length > 10000 →
      truncateDiff d = goTake d 10000 ++ "\n...[TRUNCATED]" ∧
      (goTake d 10000).length = 10000 ∧
      (truncateDiff d).length = 10000 + 15) ∧
    (d.length ≤ 10000 → truncateDiff d = d) := by
  refine ⟨rfl, fun h => ?_, fun h => ?_⟩
  · have heq : truncateDiff d = goTake d 10000 ++ "\n...[TRUNCATED]" := by
      unfold truncateDiff
      rw [if_pos h]
    have hlen : (goTake d 10000).length = 10000 := by
      obtain ⟨dd⟩ := d
      simp only [goTake, String.length] at h ⊢
      simp only [List.length_take]
      omega
    refine ⟨heq, hlen, ?_⟩
    rw [heq, String.length_append, hlen]
    rfl
  · unfold truncateDiff
    rw [if_neg (by omega)]

/-- Witness for C4 at a concrete 10,001-character string (and the empty
repository model). -/
theorem getStagedDiff_truncation_witness :
    (String.mk (List.replicate 10001 'a')).length > 10000 ∧
    truncateDiff (String.mk (List.replicate 10001 'a')) =
      goTake (String.mk (List.replicate 10001 'a')) 10000 ++
        "\n...[TRUNCATED]" ∧
    (truncateDiff (String.mk (List.replicate 10001 'a'))).length =
      10000 + 15 :=
  have h : (String.mk (List.replicate 10001 'a')).length > 10000 := by
    have hlen : (String.mk (List.replicate 10001 'a')).length = 10001 := by
      show (List.replicate 10001 'a').length = 10001
      exact List.length_replicate 10001 'a'
    omega
  ⟨h,
   ((getStagedDiff_truncation ⟨[], fun _ => none, fun _ => none⟩
      (String.mk (List.replicate 10001 'a'))).2.1 h).1,
   ((getStagedDiff_truncation ⟨[], fun _ => none, fun _ => none⟩
      (String.mk (List.replicate 10001 'a'))).2.1 h).2.2⟩

/-- C9: the block synthesized for a staged Added file contains the header
line `new file mode 100644`; when the working-directory content is readable
its body (the lines after the 5 headers) is exactly one `+`-prefixed line
per line of the content; when the content cannot be read the block is the 5
header lines alone — the synthesis never fails, it just omits the body. -/
theorem getStagedDiff_added_file_block (m : RepoModel)
    (path extra content : String) :
    "new file mode 100644" ∈ fileBlockLines m ⟨path, .added, extra⟩ ∧
    (m.workFile path = some content →
      (fileBlockLines m ⟨path, .added, extra⟩).drop 5 =
        (goSplitNL content).map (fun line => "+" ++ line) ∧
      ((fileBlockLines m ⟨path, .added, extra⟩).drop 5).length =
        (goSplitNL content).length ∧
      ∀ l ∈ (fileBlockLines m ⟨path, .added, extra⟩).drop 5,
        goHasPrefix l "+" = true) ∧
    (m.workFile path = none →
      fileBlockLines m ⟨path, .added, extra⟩ =
        ["diff --git a/" ++ path ++ " b/" ++ path,
         "new file mode 100644",
         "index 0000000.." ++ extra,
         "--- /dev/null",
         "+++ b/" ++ path]) := by
  refine ⟨?_, fun h => ?_, fun h => ?_⟩
  · simp [fileBlockLines]
  · have hdrop : (fileBlockLines m ⟨path, .added, extra⟩).drop 5 =
        (goSplitNL content).map (fun line => "+" ++ line) := by
      simp [fileBlockLines, h]
    refine ⟨hdrop, by rw [hdrop, List.length_map], ?_⟩
    rw [hdrop]
    intro l hl
    obtain ⟨x, _, rfl⟩ := List.mem_map.mp hl
    exact goHasPrefix_cons "+" x rfl
  · simp [fileBlockLines, h]

/-- Witness for C9 at a concrete model with one two-line added file readable
from the working tree, and one whose content is unreadable. -/
theorem getStagedDiff_added_file_block_witness :
    ((fun p => if p == "f.txt" then some "hello\nworld" else none)
        ("f.txt" : String) = some "hello\nworld") ∧
    ((fileBlockLines
        ⟨[⟨"f.txt", .added, "abc1234"⟩],
         fun p => if p == "f.txt" then some "hello\nworld" else none,
         fun _ => none⟩
        ⟨"f.txt", .added, "abc1234"⟩).drop 5).length =
      (goSplitNL "hello\nworld").length ∧
    fileBlockLines
        ⟨[⟨"g.txt", .added, "ffff000"⟩],
         fun _ => none, fun _ => none⟩
        ⟨"g.txt", .added, "ffff000"⟩ =
      ["diff --git a/" ++ "g.txt" ++ " b/" ++ "g.txt",
       "new file mode 100644",
       "index 0000000.." ++ "ffff000",
       "--- /dev/null",
       "+++ b/" ++ "g.txt"] :=
  ⟨rfl,
   ((getStagedDiff_added_file_block
      ⟨[⟨"f.txt", .added, "abc1234"⟩],
       fun p => if p == "f.txt" then some "hello\nworld" else none,
       fun _ => none⟩
      "f.txt" "abc1234" "hello\nworld").2.1 rfl).2.1,
   (getStagedDiff_added_file_block
      ⟨[⟨"g.txt", .added, "ffff000"⟩],
       fun _ => none, fun _ => none⟩
      "g.txt" "ffff000" "unused").2.2 rfl⟩

/-! ## Claim theorems: the retry loop -/

/-- `is429` characterisation. -/
theorem is429_iff (r : HttpResult) :
    is429 r = true ↔
      ∃ status body dec, r = .response 429 status body dec := by
  cases r with
  | failure msg => simp [is429]
  | response code status body dec =>
    simp only [is429, beq_iff_eq, HttpResult.response.injEq]
    constructor
    · intro h
      exact ⟨status, body, dec, h, rfl, rfl, rfl⟩
    · rintro ⟨s, b, d, h, -, -, -⟩
      exact h

/-- The loop makes at most `fuel` HTTP calls. -/
theorem attemptLoop_calls_le (resps : Nat → HttpResult) (mr : Nat) :
    ∀ fuel attempt, (attemptLoop resps mr fuel attempt).calls ≤ fuel := by
  intro fuel
  induction fuel with
  | zero => intro attempt; simp [attemptLoop]
  | succ n ih =>
    intro attempt
    simp only [attemptLoop]
    cases resps attempt with
    | failure msg => simp
    | response code status body dec =>
      by_cases h429 : (code == 429) = true
      · simp only [h429, if_true]
        by_cases hlast : (attempt == mr) = true
        · simp [hlast]
        · simp only [Bool.not_eq_true] at hlast
          simp only [hlast, Bool.false_eq_true, if_false]
          have := ih (attempt + 1)
          omega
      · simp only [Bool.not_eq_true] at h429
        simp only [h429, Bool.false_eq_true, if_false]
        by_cases h200 : (code == 200) = true
        · simp only [h200, Bool.not_true, Bool.false_eq_true, if_false]
          cases dec with
          | none => simp
          | some o =>
            by_cases hempty : (o.response == "") = true
            · simp [hempty]
            · simp only [Bool.not_eq_true] at hempty
              simp [hempty]
        · simp only [Bool.not_eq_true] at h200
          simp [h200]

/-- Every HTTP call before the last one of a run was answered with 429. -/
theorem attemptLoop_prev_429 (resps : Nat → HttpResult) (mr : Nat) :
    ∀ fuel attempt i, attempt ≤ i →
      i + 1 < attempt + (attemptLoop resps mr fuel attempt).calls →
      is429 (resps i) = true := by
  intro fuel
  induction fuel with
  | zero =>
    intro attempt i hle hlt
    simp only [attemptLoop] at hlt
    omega
  | succ n ih =>
    intro attempt i hle hlt
    simp only [attemptLoop] at hlt
    cases hres : resps attempt with
    | failure msg =>
      rw [hres] at hlt
      simp at hlt
      omega
    | response code status body dec =>
      rw [hres] at hlt
      by_cases h429 : (code == 429) = true
      · simp only [h429, if_true] at hlt
        by_cases hlast : (attempt == mr) = true
        · simp at hlast
          simp only [hlast, beq_self_eq_true, if_true] at hlt
          simp at hlt
          omega
        · simp only [Bool.not_eq_true] at hlast
          simp only [hlast, Bool.false_eq_true, if_false] at hlt
          rcases Nat.eq_or_lt_of_le hle with heq | hgt
          · subst heq
            rw [hres]
            simp only [is429]
            exact h429
          · exact ih (attempt + 1) i hgt (by omega)
      · simp only [Bool.not_eq_true] at h429
        simp only [h429, Bool.false_eq_true, if_false] at hlt
        by_cases h200 : (code == 200) = true
        · simp only [h200, Bool.not_true, Bool.false_eq_true, if_false] at hlt
          cases dec with
          | none => simp at hlt; omega
          | some o =>
            by_cases hempty : (o.response == "") = true
            · simp [hempty] at hlt; omega
            · simp only [Bool.not_eq_true] at hempty
              simp [hempty] at hlt
              omega
        · simp only [Bool.not_eq_true] at h200
          simp [h200] at hlt
          omega

/-- The sleeps of a run are the backoff delays of all attempts after the
first one it performs. -/
theorem attemptLoop_sleeps (resps : Nat → HttpResult) (mr : Nat) :
    ∀ fuel attempt, (attemptLoop resps mr fuel attempt).sleeps =
      (List.range' attempt (attemptLoop resps mr fuel attempt).calls).filterMap
        (fun a => if 0 < a then some (2 * 2 ^ (a - 1)) else none) := by
  intro fuel
  induction fuel with
  | zero => intro attempt; simp [attemptLoop]
  | succ n ih =>
    intro attempt
    simp only [attemptLoop]
    cases resps attempt with
    | failure msg =>
      by_cases hpos : 0 < attempt <;> simp [hpos, List.filterMap_cons]
    | response code status body dec =>
      by_cases h429 : (code == 429) = true
      · simp only [h429, if_true]
        by_cases hlast : (attempt == mr) = true
        · by_cases hpos : 0 < attempt <;>
            simp [hlast, hpos, List.filterMap_cons]
        · simp only [Bool.not_eq_true] at hlast
          simp only [hlast, Bool.false_eq_true, if_false]
          rw [Nat.add_comm 1, List.range'_succ, List.filterMap_cons,
            ih (attempt + 1)]
          by_cases hpos : 0 < attempt <;> simp [hpos]
      · simp only [Bool.not_eq_true] at h429
        simp only [h429, Bool.false_eq_true, if_false]
        by_cases h200 : (code == 200) = true
        · simp only [h200, Bool.not_true, Bool.false_eq_true, if_false]
          cases dec with
          | none =>
            by_cases hpos : 0 < attempt <;>
              simp [hpos, List.filterMap_cons]
          | some o =>
            by_cases hempty : (o.response == "") = true
            · by_cases hpos : 0 < attempt <;>
                simp [hempty, hpos, List.filterMap_cons]
            · simp only [Bool.not_eq_true] at hempty
              by_cases hpos : 0 < attempt <;>
                simp [hempty, hpos, List.filterMap_cons]
        · simp only [Bool.not_eq_true] at h200
          by_cases hpos : 0 < attempt <;>
            simp [h200, hpos, List.filterMap_cons]

/-- A successful result can only arise from a 200 response whose decoded
payload has a non-empty generated-text field, and it is that field trimmed. -/
theorem attemptLoop_ok (resps : Nat → HttpResult) (mr : Nat) :
    ∀ fuel attempt s, attempt + fuel ≤ mr + 1 →
      (attemptLoop resps mr fuel attempt).result = .ok s →
      ∃ a status body o, attempt ≤ a ∧ a ≤ mr ∧
        resps a = .response 200 status body (some o) ∧
        ¬ o.response = "" ∧ s = goTrimSpace o.response := by
  intro fuel
  induction fuel with
  | zero =>
    intro attempt s hb hok
    simp [attemptLoop] at hok
  | succ n ih =>
    intro attempt s hb hok
    simp only [attemptLoop] at hok
    cases hres : resps attempt with
    | failure msg =>
      rw [hres] at hok
      simp at hok
    | response code status body dec =>
      rw [hres] at hok
      by_cases h429 : (code == 429) = true
      · simp only [h429, if_true] at hok
        by_cases hlast : (attempt == mr) = true
        · simp [hlast] at hok
        · simp only [Bool.not_eq_true] at hlast
          simp only [hlast, Bool.false_eq_true, if_false] at hok
          obtain ⟨a, s2, b2, o, haa, ham, hra, hne, hs⟩ :=
            ih (attempt + 1) s (by omega) hok
          exact ⟨a, s2, b2, o, by omega, ham, hra, hne, hs⟩
      · simp only [Bool.not_eq_true] at h429
        simp only [h429, Bool.false_eq_true, if_false] at hok
        by_cases h200 : (code == 200) = true
        · simp only [h200, Bool.not_true, Bool.false_eq_true, if_false]
            at hok
          cases dec with
          | none => simp at hok
          | some o =>
            by_cases hempty : (o.response == "") = true
            · simp [hempty] at hok
            · simp only [Bool.not_eq_true] at hempty
              simp only [hempty, Bool.false_eq_true, if_false] at hok
              simp only [Except.ok.injEq] at hok
              have hcode : code = 200 := by simpa using h200
              subst hcode
              refine ⟨attempt, status, body, o, Nat.le_refl attempt,
                by omega, hres, ?_, hok.symm⟩
              intro hcon
              rw [hcon] at hempty
              simp at hempty
        · simp only [Bool.not_eq_true] at h200
          simp [h200] at hok

/-- The sleeps of a full run are the prefix of the backoff schedule
`[2, 4, 8]` matching the number of retries performed. -/
theorem generate_sleeps_schedule (resps : Nat → HttpResult) :
    (GenerateCommitMessage resps).sleeps =
      [2, 4, 8].take ((GenerateCommitMessage resps).calls - 1) := by
  have hs := attemptLoop_sleeps resps 3 4 0
  have hc := attemptLoop_calls_le resps 3 4 0
  simp only [GenerateCommitMessage]
  rw [hs]
  set c := (attemptLoop resps 3 4 0).calls with hcdef
  interval_cases c <;> rfl

/-- C2: `GenerateCommitMessage` makes at most 4 attempts; every attempt
before the final one was answered 429 (it retries only on 429); the sleeps
performed are the prefix of the delays 2, 4, 8 matching the retries; and
when all four attempts return 429 the run ends in `RateLimitExceeded`
carrying the body of the last 429 response, after 4 calls and sleeps of
2, 4, 8 time units. -/
theorem generate_retry_policy (resps : Nat → HttpResult) :
    (GenerateCommitMessage resps).calls ≤ 4 ∧
    (∀ i, i + 1 < (GenerateCommitMessage resps).calls →
      is429 (resps i) = true) ∧
    (GenerateCommitMessage resps).sleeps =
      [2, 4, 8].take ((GenerateCommitMessage resps).calls - 1) ∧
    ((∀ a, a ≤ 3 → is429 (resps a) = true) →
      (GenerateCommitMessage resps).result =
        .error (.rateLimitExceeded 3 (bodyOf (resps 3))) ∧
      (GenerateCommitMessage resps).calls = 4 ∧
      (GenerateCommitMessage resps).sleeps = [2, 4, 8]) := by
  refine ⟨attemptLoop_calls_le resps 3 4 0, ?_, generate_sleeps_schedule resps, ?_⟩
  · intro i hi
    simp only [GenerateCommitMessage] at hi
    exact attemptLoop_prev_429 resps 3 4 0 i (Nat.zero_le i) (by omega)
  · intro hall
    obtain ⟨s0, b0, d0, h0⟩ := (is429_iff (resps 0)).mp (hall 0 (by omega))
    obtain ⟨s1, b1, d1, h1⟩ := (is429_iff (resps 1)).mp (hall 1 (by omega))
    obtain ⟨s2, b2, d2, h2⟩ := (is429_iff (resps 2)).mp (hall 2 (by omega))
    obtain ⟨s3, b3, d3, h3⟩ := (is429_iff (resps 3)).mp (hall 3 (by omega))
    refine ⟨?_, ?_, ?_⟩ <;>
      simp [GenerateCommitMessage, attemptLoop, h0, h1, h2, h3, bodyOf]

/-- Witness for C2 at a concrete sequence answering 429 on every attempt. -/
theorem generate_retry_policy_witness :
    (∀ a, a ≤ 3 →
      is429 ((fun _ => HttpResult.response 429 "429 Too Many Requests"
        "slow down" none) a) = true) ∧
    (GenerateCommitMessage (fun _ =>
        HttpResult.response 429 "429 Too Many Requests"
          "slow down" none)).result =
      .error (.rateLimitExceeded 3 (bodyOf (HttpResult.response 429
        "429 Too Many Requests" "slow down" none))) ∧
    (GenerateCommitMessage (fun _ =>
        HttpResult.response 429 "429 Too Many Requests"
          "slow down" none)).calls = 4 ∧
    (GenerateCommitMessage (fun _ =>
        HttpResult.response 429 "429 Too Many Requests"
          "slow down" none)).sleeps = [2, 4, 8] :=
  ⟨fun _ _ => rfl,
   (generate_retry_policy (fun _ => HttpResult.response 429
      "429 Too Many Requests" "slow down" none)).2.2.2
    (fun _ _ => rfl)⟩

/-- C3: when the attempt the loop reaches (all earlier attempts having been
rate-limited) is answered with a status that is neither 429 nor a 2xx
success, `GenerateCommitMessage` returns the `RemoteError` carrying the
status text and the body at once, making no further HTTP calls. -/
theorem generate_remote_error (resps : Nat → HttpResult) (a code : Nat)
    (status body : String) (dec : Option OllamaResponse)
    (ha : a ≤ 3)
    (hprev : ∀ i, i < a → is429 (resps i) = true)
    (hres : resps a = .response code status body dec)
    (h429 : ¬ code = 429)
    (h2xx : ¬ (200 ≤ code ∧ code < 300)) :
    (GenerateCommitMessage resps).result =
      .error (.remoteError status body) ∧
    (GenerateCommitMessage resps).calls = a + 1 := by
  have hb429 : (code == 429) = false := by
    simp only [beq_eq_false_iff_ne, ne_eq]
    exact h429
  have hb200 : (code == 200) = false := by
    simp only [beq_eq_false_iff_ne, ne_eq]
    intro hc
    exact h2xx (by omega)
  interval_cases a
  · constructor <;>
      simp [GenerateCommitMessage, attemptLoop, hres, hb429, hb200]
  · obtain ⟨s0, b0, d0, h0⟩ := (is429_iff (resps 0)).mp (hprev 0 (by omega))
    constructor <;>
      simp [GenerateCommitMessage, attemptLoop, hres, hb429, hb200, h0]
  · obtain ⟨s0, b0, d0, h0⟩ := (is429_iff (resps 0)).mp (hprev 0 (by omega))
    obtain ⟨s1, b1, d1, h1⟩ := (is429_iff (resps 1)).mp (hprev 1 (by omega))
    constructor <;>
      simp [GenerateCommitMessage, attemptLoop, hres, hb429, hb200, h0, h1]
  · obtain ⟨s0, b0, d0, h0⟩ := (is429_iff (resps 0)).mp (hprev 0 (by omega))
    obtain ⟨s1, b1, d1, h1⟩ := (is429_iff (resps 1)).mp (hprev 1 (by omega))
    obtain ⟨s2, b2, d2, h2⟩ := (is429_iff (resps 2)).mp (hprev 2 (by omega))
    constructor <;>
      simp [GenerateCommitMessage, attemptLoop, hres, hb429, hb200,
        h0, h1, h2]

/-- Witness for C3 at a concrete 400 response on the first attempt. -/
theorem generate_remote_error_witness :
    ¬ (400 : Nat) = 429 ∧
    ¬ (200 ≤ (400 : Nat) ∧ (400 : Nat) < 300) ∧
    (GenerateCommitMessage (fun _ =>
        HttpResult.response 400 "400 Bad Request" "bad prompt" none)).result =
      .error (.remoteError "400 Bad Request" "bad prompt") ∧
    (GenerateCommitMessage (fun _ =>
        HttpResult.response 400 "400 Bad Request" "bad prompt" none)).calls
      = 0 + 1 :=
  ⟨by decide, by decide,
   (generate_remote_error (fun _ =>
      HttpResult.response 400 "400 Bad Request" "bad prompt" none)
     0 400 "400 Bad Request" "bad prompt" none (by omega)
     (fun i hi => absurd hi (by omega)) rfl (by decide) (by decide)).1,
   (generate_remote_error (fun _ =>
      HttpResult.response 400 "400 Bad Request" "bad prompt" none)
     0 400 "400 Bad Request" "bad prompt" none (by omega)
     (fun i hi => absurd hi (by omega)) rfl (by decide) (by decide)).2⟩

/-- C1 counterexample: a 200 response whose decoded generated-text field is
the non-empty string `" "` is treated as a success, but the returned value
is the empty string — so the function can return an empty string as a
success value, contrary to the claim. -/
theorem generate_empty_success_cex :
    (GenerateCommitMessage (fun _ =>
        HttpResult.response 200 "200 OK" "raw body"
          (some ⟨" ", true⟩))).result = .ok "" ∧
    ¬ (" " : String) = "" :=
  ⟨rfl, by decide⟩

/-- C1 (amended): every successful result is the whitespace-trimmed decoded
generated text of a 200 response whose field was non-empty (so it may be
empty when that field was whitespace-only); a 200 response whose decoded
field is the empty string is reported as the `EmptyResponse` error. -/
theorem generate_success_trimmed (resps : Nat → HttpResult) :
    (∀ s, (GenerateCommitMessage resps).result = .ok s →
      ∃ a status body o, a ≤ 3 ∧
        resps a = .response 200 status body (some o) ∧
        ¬ o.response = "" ∧ s = goTrimSpace o.response) ∧
    (∀ status body o, resps 0 = .response 200 status body (some o) →
      (¬ o.response = "" →
        (GenerateCommitMessage resps).result =
          .ok (goTrimSpace o.response)) ∧
      (o.response = "" →
        (GenerateCommitMessage resps).result = .error .emptyResponse)) := by
  constructor
  · intro s hs
    obtain ⟨a, status, body, o, -, ham, hra, hne, htrim⟩ :=
      attemptLoop_ok resps 3 4 0 s (by omega) hs
    exact ⟨a, status, body, o, ham, hra, hne, htrim⟩
  · intro status body o h0
    constructor
    · intro hne
      have hb : (o.response == "") = false := by
        simp only [beq_eq_false_iff_ne, ne_eq]
        exact hne
      simp [GenerateCommitMessage, attemptLoop, h0, hb]
    · intro he
      simp [GenerateCommitMessage, attemptLoop, h0, he]

/-- Witness for C1 (amended) at a concrete 200 response with padded text. -/
theorem generate_success_trimmed_witness :
    ((fun _ => HttpResult.response 200 "200 OK" "raw body"
        (some ⟨" ok ", true⟩)) (0 : Nat) =
      HttpResult.response 200 "200 OK" "raw body"
        (some ⟨" ok ", true⟩)) ∧
    ¬ (" ok " : String) = "" ∧
    (GenerateCommitMessage (fun _ =>
        HttpResult.response 200 "200 OK" "raw body"
          (some ⟨" ok ", true⟩))).result = .ok "ok" :=
  ⟨rfl, by decide,
   ((generate_success_trimmed (fun _ =>
      HttpResult.response 200 "200 OK" "raw body"
        (some ⟨" ok ", true⟩))).2 "200 OK" "raw body"
      ⟨" ok ", true⟩ rfl).1 (by decide)⟩

/-! ## Claim theorems: prompt builder -/

/-- A string of positive length is not the empty string. -/
theorem ne_empty_of_length_pos (s : String) (h : 0 < s.length) :
    ¬ s = "" := by
  intro hcon
  rw [hcon] at h
  have h0 : ("" : String).length = 0 := rfl
  omega

/-- C10: `buildPrompt` treats a nil state pointer exactly like a
Normal-state value; the prompt decomposes into the fixed preamble, the
state block, the fixed instructions, the rules block and the labelled diff;
the state block is empty exactly for nil/Normal states and non-empty
otherwise; the Team Rules block is present iff the rules string is
non-empty; and the prompt ends with `"Diff:\n"` followed by the diff text
verbatim. -/
theorem buildPrompt_structure (diff rules : String)
    (gitState : Option GitState) :
    (∀ st : GitState, st.type = .normal →
      buildPrompt diff rules (some st) = buildPrompt diff rules none) ∧
    buildPrompt diff rules gitState =
      promptPreamble ++ statePromptBlock gitState ++ generalInstructions ++
        rulesPromptBlock rules ++ ("Diff:\n" ++ diff) ∧
    statePromptBlock none = "" ∧
    (∀ st : GitState, st.type = .normal → statePromptBlock (some st) = "") ∧
    (∀ st : GitState, ¬ st.type = .normal →
      ¬ statePromptBlock (some st) = "") ∧
    (rulesPromptBlock rules = "" ↔ rules = "") := by
  refine ⟨?_, ?_, rfl, ?_, ?_, ?_⟩
  · intro st h
    simp [buildPrompt, h]
  · cases gitState with
    | none =>
      by_cases hr : rules = "" <;>
        simp [buildPrompt, statePromptBlock, rulesPromptBlock, hr]
    | some st =>
      by_cases hn : st.type = .normal <;> by_cases hr : rules = "" <;>
        simp [buildPrompt, statePromptBlock, rulesPromptBlock, hn, hr]
  · intro st h
    simp [statePromptBlock, h]
  · intro st h
    simp only [statePromptBlock, if_neg h]
    apply ne_empty_of_length_pos
    rw [String.length_append, String.length_append]
    have h1 : 0 < ("=== SPECIAL GIT STATE CONTEXT ===\n\n" : String).length :=
      by decide
    omega
  · constructor
    · intro h
      by_contra hr
      have hblock : rulesPromptBlock rules =
          "Team Rules:\n" ++ rules ++ "\n\n" := by
        simp [rulesPromptBlock, hr]
      rw [hblock] at h
      revert h
      apply ne_empty_of_length_pos
      rw [String.length_append, String.length_append]
      have h1 : 0 < ("Team Rules:\n" : String).length := by decide
      omega
    · intro h
      simp [rulesPromptBlock, h]

/-- Witness for C10 at concrete diff/rules/state values. -/
theorem buildPrompt_structure_witness :
    buildPrompt "D" "R" (some ⟨.normal, "m", false⟩) =
      buildPrompt "D" "R" none ∧
    (rulesPromptBlock "" = "" ↔ ("" : String) = "") ∧
    buildPrompt "D" "" none =
      promptPreamble ++ statePromptBlock none ++ generalInstructions ++
        rulesPromptBlock "" ++ ("Diff:\n" ++ "D") :=
  ⟨(buildPrompt_structure "D" "R" none).1 ⟨.normal, "m", false⟩ rfl,
   (buildPrompt_structure "D" "" none).2.2.2.2.2,
   (buildPrompt_structure "D" "" none).2.1⟩

end AICommit
